import Mathlib

/-
Verification of the appengine identity accessor module (identity.go).

The module is a thin client over the platform's internal RPC services.
Every accessor builds a request message, makes a single call through the
injected context, and either unmarshals the response fields or propagates
the call's error verbatim.  We embed the module shallowly:

* the injected context is a record of the runtime-supplied values the
  module reads (version ID, backend-instance index) together with the
  behaviour of the external RPC dispatcher for each (service, method)
  pair the module invokes — Go's `c.Call` unmarshals into the typed
  response, so the dispatcher is modelled per method, returning either a
  typed response or an error value;
* each accessor returns its Go results (the error result becoming an
  `Option GoError`, `none` for Go's nil) paired with the trace of
  observable effects it performs (RPC calls, error-code-map
  registrations);
* a nil-pointer dereference is modelled by the `GoResult.panics` outcome;
* Go nil slices are modelled as the empty list.
-/

namespace GoAppengine

/-- A Go error value as returned through the injected context's Call.
Identified by its message; the module never inspects it, only passes it on. -/
structure GoError where
  msg : String
  deriving DecidableEq, Repr

/-- Go `time.Time` values as far as this module observes them: either the
zero value `time.Time\x7b\x7d` or a value produced by `time.Unix sec nsec`. -/
inductive GoTime where
  | zeroTime : GoTime
  | unix : Int → Int → GoTime
  deriving DecidableEq, Repr

/-- The UTF-8 encoding of one Unicode code point, each byte a natural
number below 256. -/
def utf8EncodeCharNat (n : Nat) : List Nat :=
  if n < 0x80 then [n]
  else if n < 0x800 then
    [0xC0 ||| (n >>> 6), 0x80 ||| (n &&& 0x3F)]
  else if n < 0x10000 then
    [0xE0 ||| (n >>> 12), 0x80 ||| ((n >>> 6) &&& 0x3F), 0x80 ||| (n &&& 0x3F)]
  else
    [0xF0 ||| (n >>> 18), 0x80 ||| ((n >>> 12) &&& 0x3F),
     0x80 ||| ((n >>> 6) &&& 0x3F), 0x80 ||| (n &&& 0x3F)]

/-- Models the Go conversion from string to byte slice: the UTF-8 bytes of
the string. -/
def stringToBytes (s : String) : List Nat :=
  s.toList.flatMap (fun c => utf8EncodeCharNat c.toNat)

/-- Modelled from the spec: the request/response message schemas are owned
by the external service layer (the generated package
appengine_internal/modules, not under this module); the fields are exactly
the ones identity.go reads or writes.  Proto2 optional fields are pointers
in Go, modelled as `Option` (nil pointer = `none`). -/
structure GetHostnameRequest where
  Module : Option String := none
  Version : Option String := none
  Instance : Option String := none
  deriving DecidableEq, Repr

/-- Modelled from the spec: response schema of the modules GetHostname call;
`Hostname` is a pointer field, dereferenced without a nil check by
ModuleHostname. -/
structure GetHostnameResponse where
  Hostname : Option String := none
  deriving DecidableEq, Repr

/-- Modelled from the spec: request schema of GetAccessToken; `Scope` is a
repeated string field, set to the scopes argument verbatim. -/
structure GetAccessTokenRequest where
  Scope : List String := []
  deriving DecidableEq, Repr

/-- Modelled from the spec: response schema of GetAccessToken. -/
structure GetAccessTokenResponse where
  AccessToken : Option String := none
  ExpirationTime : Option Int := none
  deriving DecidableEq, Repr

/-- Proto2 getter: the field's value, or the zero value when unset. -/
def GetAccessTokenResponse.GetAccessToken (r : GetAccessTokenResponse) : String :=
  r.AccessToken.getD ""

/-- Proto2 getter: the field's value, or the zero value when unset. -/
def GetAccessTokenResponse.GetExpirationTime (r : GetAccessTokenResponse) : Int :=
  r.ExpirationTime.getD 0

/-- Modelled from the spec: request schema of GetPublicCertificatesForApp
(no fields). -/
structure GetPublicCertificateForAppRequest where
  deriving DecidableEq, Repr

/-- Modelled from the spec: one entry of the certificate list of a
GetPublicCertificatesForApp response. -/
structure PublicCertificate where
  KeyName : Option String := none
  X509CertificatePem : Option String := none
  deriving DecidableEq, Repr

/-- Proto2 getter: the field's value, or the zero value when unset. -/
def PublicCertificate.GetKeyName (p : PublicCertificate) : String :=
  p.KeyName.getD ""

/-- Proto2 getter: the field's value, or the zero value when unset. -/
def PublicCertificate.GetX509CertificatePem (p : PublicCertificate) : String :=
  p.X509CertificatePem.getD ""

/-- Modelled from the spec: response schema of GetPublicCertificatesForApp. -/
structure GetPublicCertificateForAppResponse where
  PublicCertificateList : List PublicCertificate := []
  deriving DecidableEq, Repr

/-- Modelled from the spec: request schema of GetServiceAccountName
(no fields). -/
structure GetServiceAccountNameRequest where
  deriving DecidableEq, Repr

/-- Modelled from the spec: response schema of GetServiceAccountName. -/
structure GetServiceAccountNameResponse where
  ServiceAccountName : Option String := none
  deriving DecidableEq, Repr

/-- Proto2 getter: the field's value, or the zero value when unset. -/
def GetServiceAccountNameResponse.GetServiceAccountName
    (r : GetServiceAccountNameResponse) : String :=
  r.ServiceAccountName.getD ""

/-- Modelled from the spec: request schema of SignForApp; `BytesToSign` is a
bytes field, set to the input bytes verbatim. -/
structure SignForAppRequest where
  BytesToSign : List Nat := []
  deriving DecidableEq, Repr

/-- Modelled from the spec: response schema of SignForApp. -/
structure SignForAppResponse where
  KeyName : Option String := none
  SignatureBytes : Option (List Nat) := none
  deriving DecidableEq, Repr

/-- Proto2 getter: the field's value, or the zero value when unset. -/
def SignForAppResponse.GetKeyName (r : SignForAppResponse) : String :=
  r.KeyName.getD ""

/-- Proto2 getter: the field's value, or the zero value when unset. -/
def SignForAppResponse.GetSignatureBytes (r : SignForAppResponse) : List Nat :=
  r.SignatureBytes.getD []

/-- A request as it crosses the injected Call, tagged by its message type. -/
inductive Req where
  | getHostname : GetHostnameRequest → Req
  | getAccessToken : GetAccessTokenRequest → Req
  | getPublicCertificatesForApp : GetPublicCertificateForAppRequest → Req
  | getServiceAccountName : GetServiceAccountNameRequest → Req
  | signForApp : SignForAppRequest → Req
  deriving DecidableEq, Repr

/-- An observable process effect of this module: a single RPC call through
the injected context (service name, method name, request), or the one-time
startup registration of an error-code name table for a service. -/
inductive Effect where
  | call : String → String → Req → Effect
  | registerErrorCodeMap : String → Effect
  deriving DecidableEq, Repr

/-- Whether an effect is an RPC call (as opposed to a registration). -/
def Effect.isCall : Effect → Bool
  | .call _ _ _ => true
  | .registerErrorCodeMap _ => false

/-- The injected context: the runtime-supplied version ID and
backend-instance index that identity.go reads, and the behaviour of the
external RPC dispatcher for each (service, method) pair it invokes. -/
structure Context where
  versionID : String
  backendIndex : Int
  getHostname : GetHostnameRequest → Except GoError GetHostnameResponse
  getAccessToken : GetAccessTokenRequest → Except GoError GetAccessTokenResponse
  getPublicCertificatesForApp :
    GetPublicCertificateForAppRequest → Except GoError GetPublicCertificateForAppResponse
  getServiceAccountName :
    GetServiceAccountNameRequest → Except GoError GetServiceAccountNameResponse
  signForApp : SignForAppRequest → Except GoError SignForAppResponse

/-- Outcome of running a Go function body: a normal return, or a runtime
panic (here only from a nil-pointer dereference). -/
inductive GoResult (α : Type) where
  | ok : α → GoResult α
  | panics : GoResult α
  deriving DecidableEq, Repr

/-- identity.go ModuleHostname, request construction: starting from the
empty GetHostnameRequest, each field is assigned exactly when the
corresponding argument is non-empty (the three `if arg != ""` statements). -/
def mkGetHostnameRequest (module version inst : String) : GetHostnameRequest :=
  let req : GetHostnameRequest := {}
  let req := if module ≠ "" then { req with Module := some module } else req
  let req := if version ≠ "" then { req with Version := some version } else req
  let req := if inst ≠ "" then { req with Instance := some inst } else req
  req

/-- identity.go ModuleHostname: build the request, make the single
"modules"/"GetHostname" call, return ("", err) on a call error, and
`*res.Hostname` with a nil error on success — the dereference panics when
the response leaves Hostname unset.  Second component: the effect trace. -/
def ModuleHostname (c : Context) (module version inst : String) :
    GoResult (String × Option GoError) × List Effect :=
  let req := mkGetHostnameRequest module version inst
  let ret : GoResult (String × Option GoError) :=
    match c.getHostname req with
    | .error err => GoResult.ok ("", some err)
    | .ok res =>
      match res.Hostname with
      | some h => GoResult.ok (h, none)
      | none => GoResult.panics
  (ret, [Effect.call "modules" "GetHostname" (Req.getHostname req)])

/-- identity.go AccessToken: send a GetAccessTokenRequest whose Scope is the
scopes argument over the single "app_identity_service"/"GetAccessToken"
call; on error return ("", time.Time\x7b\x7d, err), on success the token and
`time.Unix(expiration, 0)` with a nil error. -/
def AccessToken (c : Context) (scopes : List String) :
    (String × GoTime × Option GoError) × List Effect :=
  let req : GetAccessTokenRequest := { Scope := scopes }
  let ret : String × GoTime × Option GoError :=
    match c.getAccessToken req with
    | .error err => ("", GoTime.zeroTime, some err)
    | .ok res => (res.GetAccessToken, GoTime.unix res.GetExpirationTime 0, none)
  (ret, [Effect.call "app_identity_service" "GetAccessToken" (Req.getAccessToken req)])

/-- identity.go Certificate: a public certificate for the app, pairing a key
name with the PEM-encoded X.509 certificate bytes. -/
structure Certificate where
  KeyName : String
  Data : List Nat
  deriving DecidableEq, Repr

/-- The Certificate built from one response entry: KeyName from the entry's
key name, Data from the bytes of its X.509 PEM string. -/
def certOfProto (pc : PublicCertificate) : Certificate :=
  { KeyName := pc.GetKeyName, Data := stringToBytes pc.GetX509CertificatePem }

/-- identity.go PublicCertificates: make the single
"app_identity_service"/"GetPublicCertificatesForApp" call; on error return
(nil, err), on success fold over the response's certificate list appending
one Certificate per entry (the `for … append` loop), with a nil error. -/
def PublicCertificates (c : Context) :
    (List Certificate × Option GoError) × List Effect :=
  let req : GetPublicCertificateForAppRequest := {}
  let ret : List Certificate × Option GoError :=
    match c.getPublicCertificatesForApp req with
    | .error err => ([], some err)
    | .ok res =>
      (res.PublicCertificateList.foldl (fun cs pc => cs ++ [certOfProto pc]) [], none)
  (ret, [Effect.call "app_identity_service" "GetPublicCertificatesForApp"
          (Req.getPublicCertificatesForApp req)])

/-- identity.go ServiceAccount: make the single
"app_identity_service"/"GetServiceAccountName" call; on error return
("", err), on success the response's service-account name with the nil
error value of that branch. -/
def ServiceAccount (c : Context) : (String × Option GoError) × List Effect :=
  let req : GetServiceAccountNameRequest := {}
  let ret : String × Option GoError :=
    match c.getServiceAccountName req with
    | .error err => ("", some err)
    | .ok res => (res.GetServiceAccountName, none)
  (ret, [Effect.call "app_identity_service" "GetServiceAccountName"
          (Req.getServiceAccountName req)])

/-- identity.go SignBytes: send a SignForAppRequest whose BytesToSign is the
input bytes over the single "app_identity_service"/"SignForApp" call; on
error return ("", nil, err), on success the response's key name and
signature bytes with a nil error. -/
def SignBytes (c : Context) (bytes : List Nat) :
    (String × List Nat × Option GoError) × List Effect :=
  let req : SignForAppRequest := { BytesToSign := bytes }
  let ret : String × List Nat × Option GoError :=
    match c.signForApp req with
    | .error err => ("", [], some err)
    | .ok res => (res.GetKeyName, res.GetSignatureBytes, none)
  (ret, [Effect.call "app_identity_service" "SignForApp" (Req.signForApp req)])

/-- Go strings.Index specialised to the single-character pattern ".": the
index of the first '.' in the list, or -1 when there is none. -/
def indexOfDot : List Char → Int
  | [] => -1
  | ch :: rest =>
    if ch = '.' then 0
    else
      let j := indexOfDot rest
      if j = -1 then -1 else j + 1

/-- identity.go BackendInstance: the runtime's backend-instance index; when
it is -1, return ("", -1); otherwise the version ID, truncated at the first
'.' when one occurs (`strings.Index` followed by the slice `name[:i]`),
paired with the index. -/
def BackendInstance (c : Context) : String × Int :=
  let index := c.backendIndex
  if index = -1 then ("", -1)
  else
    let name := c.versionID
    let i := indexOfDot name.toList
    let name := if i > -1 then ((name.toList.take i.toNat).asString) else name
    (name, index)

/-- identity.go init: registers the error-code name tables of the two
services.  Modelled from the spec: the table contents live in the generated
proto packages outside this module; only the registered service names are
observable here. -/
def initEffects : List Effect :=
  [Effect.registerErrorCodeMap "app_identity_service",
   Effect.registerErrorCodeMap "modules"]

/-- The longest prefix of the list before its first '.' (the whole list
when there is none). -/
def takeUntilDot : List Char → List Char
  | [] => []
  | ch :: rest => if ch = '.' then [] else ch :: takeUntilDot rest

/-- The string truncated at the first '.' character, or the whole string
when it contains none. -/
def truncateAtFirstDot (s : String) : String :=
  (takeUntilDot s.toList).asString

/-- The error component of a ModuleHostname outcome that returned normally
(`none` when it panicked). -/
def errComponentOf : GoResult (String × Option GoError) → Option GoError
  | GoResult.ok p => p.2
  | GoResult.panics => none

/-- The append-one-per-entry loop of PublicCertificates is the verbatim
image of the response's certificate list. -/
theorem foldl_append_eq_map (l : List PublicCertificate) (acc : List Certificate) :
    l.foldl (fun cs pc => cs ++ [certOfProto pc]) acc = acc ++ l.map certOfProto := by
  induction l generalizing acc with
  | nil => simp
  | cons x xs ih => simp [List.foldl_cons, ih]

/-- indexOfDot never returns a value below -1. -/
theorem indexOfDot_neg_one_or_nonneg (l : List Char) :
    indexOfDot l = -1 ∨ 0 ≤ indexOfDot l := by
  induction l with
  | nil => left; rfl
  | cons x xs ih =>
    by_cases hx : x = '.'
    · right; simp [indexOfDot, hx]
    · rcases ih with h | h
      · left; simp [indexOfDot, hx, h]
      · have hne : indexOfDot xs ≠ -1 := by omega
        right
        simp only [indexOfDot, hx, if_false, hne, ite_false]
        omega

/-- Taking the prefix before the first '.' (the strings.Index / slice pair)
computes the longest dot-free prefix. -/
theorem indexOfDot_take_eq_takeUntilDot (l : List Char) :
    (if indexOfDot l > -1 then l.take (indexOfDot l).toNat else l)
      = takeUntilDot l := by
  induction l with
  | nil => simp [indexOfDot, takeUntilDot]
  | cons x xs ih =>
    by_cases hx : x = '.'
    · simp [indexOfDot, takeUntilDot, hx]
    · rcases indexOfDot_neg_one_or_nonneg xs with h | h
      · have hcons : indexOfDot (x :: xs) = -1 := by
          simp [indexOfDot, hx, h]
        rw [hcons, if_neg (by omega : ¬((-1 : Int) > -1))]
        have ihe : xs = takeUntilDot xs := by
          have t := ih
          rw [h, if_neg (by omega : ¬((-1 : Int) > -1))] at t
          exact t
        simp [takeUntilDot, hx, ← ihe]
      · have hne : indexOfDot xs ≠ -1 := by omega
        have hcons : indexOfDot (x :: xs) = indexOfDot xs + 1 := by
          simp [indexOfDot, hx, hne]
        rw [hcons, if_pos (by omega : indexOfDot xs + 1 > -1)]
        have htn : (indexOfDot xs + 1).toNat = (indexOfDot xs).toNat + 1 := by omega
        rw [htn]
        have ihp := ih
        rw [if_pos (by omega : indexOfDot xs > -1)] at ihp
        simp [List.take_succ_cons, takeUntilDot, hx, ihp]

/-- A context whose dispatcher answers every method successfully, used to
exercise the success paths on concrete data. -/
def okCtx : Context :=
  { versionID := "7.123"
    backendIndex := 3
    getHostname := fun _ => Except.ok { Hostname := some "app.example.com" }
    getAccessToken := fun _ =>
      Except.ok { AccessToken := some "ya29.token", ExpirationTime := some 1700000000 }
    getPublicCertificatesForApp := fun _ =>
      Except.ok { PublicCertificateList :=
        [{ KeyName := some "key1", X509CertificatePem := some "PEM1" },
         { KeyName := some "key2", X509CertificatePem := some "PEM2" }] }
    getServiceAccountName := fun _ =>
      Except.ok { ServiceAccountName := some "app@appspot.gserviceaccount.com" }
    signForApp := fun _ =>
      Except.ok { KeyName := some "signkey", SignatureBytes := some [1, 2, 3] } }

/-- A sample error value. -/
def e0 : GoError := { msg := "over quota" }

/-- A context whose dispatcher fails every method with the error e0. -/
def errCtx : Context :=
  { versionID := "1.1"
    backendIndex := 0
    getHostname := fun _ => Except.error e0
    getAccessToken := fun _ => Except.error e0
    getPublicCertificatesForApp := fun _ => Except.error e0
    getServiceAccountName := fun _ => Except.error e0
    signForApp := fun _ => Except.error e0 }

/-- okCtx running outside a backend instance (runtime index -1). -/
def noBackendCtx : Context := { okCtx with backendIndex := -1 }

/-- okCtx whose GetHostname response leaves the Hostname field unset. -/
def nilHostnameCtx : Context :=
  { okCtx with getHostname := fun _ => Except.ok { Hostname := none } }

/-- Claim C1: for every error value e returned by the injected context's
Call, each of ModuleHostname, AccessToken, PublicCertificates,
ServiceAccount and SignBytes returns exactly that error e to the caller,
unchanged and unwrapped. -/
theorem C1_error_propagation (c : Context) (e : GoError)
    (module version inst : String) (scopes : List String) (bs : List Nat)
    (h1 : ∀ q, c.getHostname q = Except.error e)
    (h2 : ∀ q, c.getAccessToken q = Except.error e)
    (h3 : ∀ q, c.getPublicCertificatesForApp q = Except.error e)
    (h4 : ∀ q, c.getServiceAccountName q = Except.error e)
    (h5 : ∀ q, c.signForApp q = Except.error e) :
    errComponentOf (ModuleHostname c module version inst).1 = some e ∧
    ((AccessToken c scopes).1).2.2 = some e ∧
    ((PublicCertificates c).1).2 = some e ∧
    ((ServiceAccount c).1).2 = some e ∧
    ((SignBytes c bs).1).2.2 = some e := by
  refine ⟨?_, ?_, ?_, ?_, ?_⟩ <;>
    simp [ModuleHostname, AccessToken, PublicCertificates, ServiceAccount,
      SignBytes, errComponentOf, h1, h2, h3, h4, h5]

/-- Witness for C1 at the concrete always-failing context errCtx. -/
theorem C1_error_propagation_witness :
    errComponentOf (ModuleHostname errCtx "m" "v" "i").1 = some e0 ∧
    ((AccessToken errCtx ["s"]).1).2.2 = some e0 ∧
    ((PublicCertificates errCtx).1).2 = some e0 ∧
    ((ServiceAccount errCtx).1).2 = some e0 ∧
    ((SignBytes errCtx [27]).1).2.2 = some e0 :=
  C1_error_propagation errCtx e0 "m" "v" "i" ["s"] [27]
    (fun _ => rfl) (fun _ => rfl) (fun _ => rfl) (fun _ => rfl) (fun _ => rfl)

/-- Claim C2: for every successful call whose response carries a
public-certificate list of length N, PublicCertificates returns exactly the
N Certificate records in order, the i-th pairing the i-th entry's key name
with the bytes of its X.509 PEM string, and no error. -/
theorem C2_public_certificates_passthrough (c : Context)
    (r : GetPublicCertificateForAppResponse)
    (h : c.getPublicCertificatesForApp {} = Except.ok r) :
    ((PublicCertificates c).1).2 = none ∧
    ((PublicCertificates c).1).1.length = r.PublicCertificateList.length ∧
    ((PublicCertificates c).1).1 = r.PublicCertificateList.map certOfProto := by
  have hfold := foldl_append_eq_map r.PublicCertificateList []
  refine ⟨?_, ?_, ?_⟩ <;> simp [PublicCertificates, h, hfold]

/-- Witness for C2 at the concrete context okCtx (N = 2). -/
theorem C2_public_certificates_passthrough_witness :
    ((PublicCertificates okCtx).1).2 = none ∧
    ((PublicCertificates okCtx).1).1.length = 2 ∧
    ((PublicCertificates okCtx).1).1 =
      [{ KeyName := "key1", Data := [80, 69, 77, 49] },
       { KeyName := "key2", Data := [80, 69, 77, 50] }] := by
  have t := C2_public_certificates_passthrough okCtx
    { PublicCertificateList :=
      [{ KeyName := some "key1", X509CertificatePem := some "PEM1" },
       { KeyName := some "key2", X509CertificatePem := some "PEM2" }] } rfl
  refine ⟨t.1, ?_, ?_⟩
  · rw [t.2.1]
    decide
  · rw [t.2.2]
    decide

/-- The three conditional field assignments of ModuleHostname set each
request field exactly when the corresponding argument is non-empty. -/
theorem mkGetHostnameRequest_fields (module version inst : String) :
    mkGetHostnameRequest module version inst =
      { Module := if module = "" then none else some module
        Version := if version = "" then none else some version
        Instance := if inst = "" then none else some inst } := by
  by_cases h1 : module = "" <;> by_cases h2 : version = "" <;> by_cases h3 : inst = "" <;>
    simp [mkGetHostnameRequest, h1, h2, h3]

/-- Claim C3: ModuleHostname builds a GetHostnameRequest whose Module,
Version and Instance fields are set iff the corresponding argument is
non-empty, invokes the modules/GetHostname call with that request, and on
success returns the Hostname field decoded from the response. -/
theorem C3_module_hostname_contract (c : Context) (module version inst : String) :
    ((mkGetHostnameRequest module version inst).Module
        = if module = "" then none else some module) ∧
    ((mkGetHostnameRequest module version inst).Version
        = if version = "" then none else some version) ∧
    ((mkGetHostnameRequest module version inst).Instance
        = if inst = "" then none else some inst) ∧
    ((ModuleHostname c module version inst).2
        = [Effect.call "modules" "GetHostname"
            (Req.getHostname (mkGetHostnameRequest module version inst))]) ∧
    (∀ r hn, c.getHostname (mkGetHostnameRequest module version inst) = Except.ok r →
      r.Hostname = some hn →
      (ModuleHostname c module version inst).1 = GoResult.ok (hn, none)) := by
  refine ⟨?_, ?_, ?_, rfl, ?_⟩
  · rw [mkGetHostnameRequest_fields]
  · rw [mkGetHostnameRequest_fields]
  · rw [mkGetHostnameRequest_fields]
  · intro r hn hr hh
    simp [ModuleHostname, hr, hh]

/-- Witness for C3 at okCtx with module "default", empty version and
instance "0". -/
theorem C3_module_hostname_contract_witness :
    (mkGetHostnameRequest "default" "" "0").Module = some "default" ∧
    (mkGetHostnameRequest "default" "" "0").Version = none ∧
    (mkGetHostnameRequest "default" "" "0").Instance = some "0" ∧
    ((ModuleHostname okCtx "default" "" "0").2
      = [Effect.call "modules" "GetHostname"
          (Req.getHostname (mkGetHostnameRequest "default" "" "0"))]) ∧
    (ModuleHostname okCtx "default" "" "0").1 = GoResult.ok ("app.example.com", none) := by
  have t := C3_module_hostname_contract okCtx "default" "" "0"
  exact ⟨by rw [t.1]; decide, by rw [t.2.1]; decide, by rw [t.2.2.1]; decide,
         t.2.2.2.1,
         t.2.2.2.2 { Hostname := some "app.example.com" } "app.example.com" rfl rfl⟩

/-- Claim C4: AccessToken sends a GetAccessTokenRequest whose Scope equals
the scopes argument over the app_identity_service/GetAccessToken call, and
on success returns the response's token together with time.Unix applied to
the response's expiration seconds. -/
theorem C4_access_token_contract (c : Context) (scopes : List String)
    (r : GetAccessTokenResponse)
    (h : c.getAccessToken { Scope := scopes } = Except.ok r) :
    ({ Scope := scopes } : GetAccessTokenRequest).Scope = scopes ∧
    ((AccessToken c scopes).2
      = [Effect.call "app_identity_service" "GetAccessToken"
          (Req.getAccessToken { Scope := scopes })]) ∧
    (AccessToken c scopes).1
      = (r.GetAccessToken, GoTime.unix r.GetExpirationTime 0, none) := by
  refine ⟨rfl, rfl, ?_⟩
  simp [AccessToken, h]

/-- Witness for C4 at okCtx with two scopes. -/
theorem C4_access_token_contract_witness :
    ({ Scope := ["s1", "s2"] } : GetAccessTokenRequest).Scope = ["s1", "s2"] ∧
    ((AccessToken okCtx ["s1", "s2"]).2
      = [Effect.call "app_identity_service" "GetAccessToken"
          (Req.getAccessToken { Scope := ["s1", "s2"] })]) ∧
    (AccessToken okCtx ["s1", "s2"]).1
      = ("ya29.token", GoTime.unix 1700000000 0, none) := by
  have t := C4_access_token_contract okCtx ["s1", "s2"]
    { AccessToken := some "ya29.token", ExpirationTime := some 1700000000 } rfl
  exact ⟨t.1, t.2.1, by rw [t.2.2]; rfl⟩

/-- Claim C5: each of the five accessors performs exactly one call through
the injected context, with its fixed service/method pair, whatever the
dispatcher answers (hence never retries, also on errors). -/
theorem C5_single_call (c : Context) (module version inst : String)
    (scopes : List String) (bs : List Nat) :
    ((ModuleHostname c module version inst).2
      = [Effect.call "modules" "GetHostname"
          (Req.getHostname (mkGetHostnameRequest module version inst))]) ∧
    ((AccessToken c scopes).2
      = [Effect.call "app_identity_service" "GetAccessToken"
          (Req.getAccessToken { Scope := scopes })]) ∧
    ((PublicCertificates c).2
      = [Effect.call "app_identity_service" "GetPublicCertificatesForApp"
          (Req.getPublicCertificatesForApp {})]) ∧
    ((ServiceAccount c).2
      = [Effect.call "app_identity_service" "GetServiceAccountName"
          (Req.getServiceAccountName {})]) ∧
    ((SignBytes c bs).2
      = [Effect.call "app_identity_service" "SignForApp"
          (Req.signForApp { BytesToSign := bs })]) :=
  ⟨rfl, rfl, rfl, rfl, rfl⟩

/-- Claim C6: on success SignBytes returns the key name and signature bytes
decoded from the SignForApp response for a request whose BytesToSign is the
input, and ServiceAccount the name decoded from the GetServiceAccountName
response, both with a nil error. -/
theorem C6_sign_and_service_account (c : Context) (bs : List Nat)
    (rs : SignForAppResponse) (ra : GetServiceAccountNameResponse)
    (hs : c.signForApp { BytesToSign := bs } = Except.ok rs)
    (ha : c.getServiceAccountName {} = Except.ok ra) :
    ({ BytesToSign := bs } : SignForAppRequest).BytesToSign = bs ∧
    (SignBytes c bs).1 = (rs.GetKeyName, rs.GetSignatureBytes, none) ∧
    (ServiceAccount c).1 = (ra.GetServiceAccountName, none) := by
  refine ⟨rfl, ?_, ?_⟩
  · simp [SignBytes, hs]
  · simp [ServiceAccount, ha]

/-- Witness for C6 at okCtx. -/
theorem C6_sign_and_service_account_witness :
    ({ BytesToSign := [1, 2, 3] } : SignForAppRequest).BytesToSign = [1, 2, 3] ∧
    (SignBytes okCtx [1, 2, 3]).1 = ("signkey", [1, 2, 3], none) ∧
    (ServiceAccount okCtx).1 = ("app@appspot.gserviceaccount.com", none) := by
  have t := C6_sign_and_service_account okCtx [1, 2, 3]
    { KeyName := some "signkey", SignatureBytes := some [1, 2, 3] }
    { ServiceAccountName := some "app@appspot.gserviceaccount.com" } rfl rfl
  exact ⟨t.1, by rw [t.2.1]; rfl, by rw [t.2.2]; rfl⟩

/-- Claim C7: the only registration effects are the one-time init
registrations of the two error-code name tables, and every accessor's
effect trace is exactly one call effect (no registration, no second call). -/
theorem C7_effect_frame (c : Context) (module version inst : String)
    (scopes : List String) (bs : List Nat) :
    initEffects = [Effect.registerErrorCodeMap "app_identity_service",
                   Effect.registerErrorCodeMap "modules"] ∧
    initEffects.all (fun ef => !ef.isCall) = true ∧
    ((ModuleHostname c module version inst).2.all Effect.isCall = true ∧
      (ModuleHostname c module version inst).2.length = 1) ∧
    ((AccessToken c scopes).2.all Effect.isCall = true ∧
      (AccessToken c scopes).2.length = 1) ∧
    ((PublicCertificates c).2.all Effect.isCall = true ∧
      (PublicCertificates c).2.length = 1) ∧
    ((ServiceAccount c).2.all Effect.isCall = true ∧
      (ServiceAccount c).2.length = 1) ∧
    ((SignBytes c bs).2.all Effect.isCall = true ∧
      (SignBytes c bs).2.length = 1) :=
  ⟨rfl, rfl, ⟨rfl, rfl⟩, ⟨rfl, rfl⟩, ⟨rfl, rfl⟩, ⟨rfl, rfl⟩, ⟨rfl, rfl⟩⟩

/-- Claim C8: whenever the call fails, every accessor returns the zero
values of its non-error results next to the error: ModuleHostname and
ServiceAccount the empty string, AccessToken the empty string and the zero
time, PublicCertificates the nil (empty) slice, SignBytes the empty string
and nil (empty) bytes. -/
theorem C8_zero_results_on_error (c : Context) (e : GoError)
    (module version inst : String) (scopes : List String) (bs : List Nat)
    (h1 : ∀ q, c.getHostname q = Except.error e)
    (h2 : ∀ q, c.getAccessToken q = Except.error e)
    (h3 : ∀ q, c.getPublicCertificatesForApp q = Except.error e)
    (h4 : ∀ q, c.getServiceAccountName q = Except.error e)
    (h5 : ∀ q, c.signForApp q = Except.error e) :
    (ModuleHostname c module version inst).1 = GoResult.ok ("", some e) ∧
    (AccessToken c scopes).1 = ("", GoTime.zeroTime, some e) ∧
    (PublicCertificates c).1 = ([], some e) ∧
    (ServiceAccount c).1 = ("", some e) ∧
    (SignBytes c bs).1 = ("", [], some e) := by
  refine ⟨?_, ?_, ?_, ?_, ?_⟩ <;>
    simp [ModuleHostname, AccessToken, PublicCertificates, ServiceAccount,
      SignBytes, h1, h2, h3, h4, h5]

/-- Witness for C8 at the concrete always-failing context errCtx. -/
theorem C8_zero_results_on_error_witness :
    (ModuleHostname errCtx "mm" "vv" "ii").1 = GoResult.ok ("", some e0) ∧
    (AccessToken errCtx ["scope"]).1 = ("", GoTime.zeroTime, some e0) ∧
    (PublicCertificates errCtx).1 = ([], some e0) ∧
    (ServiceAccount errCtx).1 = ("", some e0) ∧
    (SignBytes errCtx [5, 6]).1 = ("", [], some e0) :=
  C8_zero_results_on_error errCtx e0 "mm" "vv" "ii" ["scope"] [5, 6]
    (fun _ => rfl) (fun _ => rfl) (fun _ => rfl) (fun _ => rfl) (fun _ => rfl)

/-- Claim C9: when the runtime's backend-instance index is -1,
BackendInstance returns ("", -1) whatever the version ID; otherwise it
returns the version ID truncated at the first '.' (the whole string when
there is no '.') together with that index. -/
theorem C9_backend_instance (c : Context) :
    (c.backendIndex = -1 → BackendInstance c = ("", -1)) ∧
    (c.backendIndex ≠ -1 →
      BackendInstance c = (truncateAtFirstDot c.versionID, c.backendIndex)) := by
  constructor
  · intro h
    simp [BackendInstance, h]
  · intro h
    have hs : (if indexOfDot c.versionID.toList > -1
          then ((c.versionID.toList.take (indexOfDot c.versionID.toList).toNat).asString)
          else c.versionID)
        = truncateAtFirstDot c.versionID := by
      by_cases hd : indexOfDot c.versionID.toList > -1
      · rw [if_pos hd, truncateAtFirstDot, ← indexOfDot_take_eq_takeUntilDot, if_pos hd]
      · rw [if_neg hd, truncateAtFirstDot, ← indexOfDot_take_eq_takeUntilDot, if_neg hd]
        cases c.versionID with
        | mk data => rfl
    simp only [BackendInstance, if_neg h]
    rw [hs]

/-- Witness for C9: a non-backend context and okCtx (index 3, version
"7.123" truncating to "7"). -/
theorem C9_backend_instance_witness :
    BackendInstance noBackendCtx = ("", -1) ∧
    BackendInstance okCtx = ("7", 3) := by
  have t1 := (C9_backend_instance noBackendCtx).1 rfl
  have t2 := (C9_backend_instance okCtx).2 (by decide)
  refine ⟨t1, ?_⟩
  rw [t2]
  decide

/-- Claim C10: ModuleHostname's success branch dereferences the response's
Hostname pointer without a nil check: for a successful call whose response
leaves Hostname unset it panics, and it is well-defined exactly under the
precondition that the successful response carries a Hostname. -/
theorem C10_hostname_nil_dereference (c : Context) (module version inst : String)
    (r : GetHostnameResponse)
    (h : c.getHostname (mkGetHostnameRequest module version inst) = Except.ok r) :
    (r.Hostname = none → (ModuleHostname c module version inst).1 = GoResult.panics) ∧
    (∀ hn, r.Hostname = some hn →
      (ModuleHostname c module version inst).1 = GoResult.ok (hn, none)) := by
  constructor
  · intro hnone
    simp [ModuleHostname, h, hnone]
  · intro hn hsome
    simp [ModuleHostname, h, hsome]

/-- Witness for C10: the unset-Hostname context panics, okCtx returns the
hostname. -/
theorem C10_hostname_nil_dereference_witness :
    (ModuleHostname nilHostnameCtx "m" "v" "i").1 = GoResult.panics ∧
    (ModuleHostname okCtx "m" "v" "i").1 = GoResult.ok ("app.example.com", none) := by
  have t1 := C10_hostname_nil_dereference nilHostnameCtx "m" "v" "i"
    { Hostname := none } rfl
  have t2 := C10_hostname_nil_dereference okCtx "m" "v" "i"
    { Hostname := some "app.example.com" } rfl
  exact ⟨t1.1 rfl, t2.2 "app.example.com" rfl⟩

end GoAppengine
